import Mathlib

set_option linter.unnecessarySeqFocus false

/-!
Shallow embedding of the static shape-inference functions of
`src/blaze/thirdparty/onnx/onnx-1.2.2/onnx/defs/nn/defs.cc`:
`convPoolTypeAndShapeInference`, `convTransposeShapeInference`,
`roiPoolTypeShapeInference`, `gloablPoolTypeShapeInference` (name kept
with the source's spelling) and the `Flatten` inference lambda.

A tensor dimension is either a known 64-bit value (`some v`) or carries
no `dim_value` (`none`, covering both unset and symbolic `dim_param`
dimensions).  Machine `int64` arithmetic never overflows on the inputs
considered here, so dimensions and attribute values are plain `Int`;
the C++ `/` on `int64_t` is truncating division, embedded as `Int.tdiv`.
-/

/-- A single tensor dimension: `some v` when `has_dim_value()` holds with
`dim_value() = v`, `none` otherwise. -/
abbrev Dim := Option Int

/-- Modelled from the spec and protobuf field semantics: reading
`dim_value()` of a dimension that carries no value yields the `int64`
default `0`. -/
def dimValue (d : Dim) : Int := d.getD 0

/-- The read-only inference context of one operator node: the declared
input shapes (an entry is `none` when that input has no shape) together
with the attribute map, one field per attribute read by the functions in
`defs.cc`; an absent attribute is `none`. -/
structure Ctx where
  inputs : List (Option (List Dim))
  elemType0 : Option Int
  auto_pad : Bool
  group : Option Int
  dilations : Option (List Int)
  pads : Option (List Int)
  strides : Option (List Int)
  kernel_shape : Option (List Int)
  output_shape : Option (List Int)
  output_padding : Option (List Int)
  pooled_shape : Option (List Int)
  axis : Option Int
deriving DecidableEq, Repr

/-- The first output slot of the context after inference ran: the
propagated element type and the written shape (`none` when
`mutable_shape()` was never touched). -/
structure OutTensor where
  elemType : Option Int
  shape : Option (List Dim)
deriving DecidableEq, Repr

/-- Outcome of one inference call: a normal return carrying the output
slot, or a hard failure raised through `fail_shape_inference`. -/
inductive InferResult where
| ok (out : OutTensor)
| err (msg : String)
deriving DecidableEq, Repr

/-- Whether the inference call ended in a hard failure. -/
def InferResult.isErr : InferResult → Bool
| .ok _ => false
| .err _ => true

/-- `hasNInputShapes(ctx, n)`: the node has at least `n` inputs and each
of the first `n` carries a shape. -/
def hasNInputShapes (ctx : Ctx) (n : Nat) : Bool :=
  decide (n ≤ ctx.inputs.length) && (ctx.inputs.take n).all (fun s => s.isSome)

/-- `getInputShape(ctx, i)` for an input whose shape is present; absent
shapes read as the empty shape (the code only calls this after
`hasNInputShapes` guards). -/
def getInputShape (ctx : Ctx) (i : Nat) : List Dim :=
  (ctx.inputs.getD i none).getD []

/-- `getAttribute(ctx, name, default)` for an `int64` attribute. -/
def getIntAttr (a : Option Int) (dflt : Int) : Int := a.getD dflt

/-- Modelled from the spec: `propagateElemTypeFromInputToOutput(ctx, 0, 0)`
(helper absent from `src/`) copies the first input's element type to the
first output; the output shape is untouched. -/
def propagateElemTypeFromInputToOutput (ctx : Ctx) : OutTensor :=
  { elemType := ctx.elemType0, shape := none }

/-- Result of resolving one repeated `int64` attribute in
`convPoolTypeAndShapeInference`: the values, or a hard failure. -/
inductive AttrRes where
| fail (msg : String)
| vals (vs : List Int)
deriving DecidableEq, Repr

/-- The `getRepeatedAttribute` + length check + default-fill pattern of
`convPoolTypeAndShapeInference`: a present attribute of wrong length is a
hard failure, an absent attribute yields the default fill. -/
def repeatedAttr (attr : Option (List Int)) (len : Nat) (dflt : List Int)
    (msg : String) : AttrRes :=
  match attr with
  | some vs => if vs.length = len then .vals vs else .fail msg
  | none => .vals dflt

/-- The same pattern in `convTransposeShapeInference`, where a wrong
length is a silent `return` (`none`) instead of a failure. -/
def softRepeatedAttr (attr : Option (List Int)) (len : Nat)
    (dflt : List Int) : Option (List Int) :=
  match attr with
  | some vs => if vs.length = len then some vs else none
  | none => some dflt

def dilationsIncorrectMsg : String := "Attribute dilations has incorrect size"

def padsIncorrectMsg : String := "Attribute pads has incorrect size"

def stridesIncorrectMsg : String := "Attribute strides has incorrect size"

def kernelIncorrectMsg : String := "Attribute kernel_shape has incorrect size"

def kernelMissingMsg : String := "Attribute kernel_shape must be specified"

def inputRankMsg : String := "Input tensor must have atleast 2 dimensions"

def secondInputRankMsg : String := "Second input tensor has wrong dimension"

def roiInputRankMsg : String := "Input tensor must have at least 2 dimensions"

def roiRoisRankMsg : String := "RoIs tensor must have 2 dimensions"

def pooledLenMsg : String := "Attribute pooled_shape has incorrect length"

def pooledMissingMsg : String := "Attribute pooled_shape must be specified"

/-- Kernel-shape resolution in `convPoolTypeAndShapeInference`: from the
attribute (wrong length is a hard failure), mandatory when
`require_kernel_shape`, otherwise read from the trailing dimensions of
the second input, returning `skip` (the function's silent `return`) as
soon as one of them carries no value. -/
inductive KernelRes where
| fail (msg : String)
| skip
| vals (vs : List Int)
deriving DecidableEq, Repr

def resolveKernelShape (ctx : Ctx) (require_kernel_shape : Bool)
    (n : Nat) : KernelRes :=
  match ctx.kernel_shape with
  | some vs => if vs.length = n then .vals vs else .fail kernelIncorrectMsg
  | none =>
    if require_kernel_shape then .fail kernelMissingMsg
    else
      let tail := (getInputShape ctx 1).drop 2
      if tail.all (fun d => d.isSome) then .vals (tail.map (fun d => d.getD 0))
      else .skip

/-- The spatial-dimension loop of `convPoolTypeAndShapeInference`
(lines 125-147): one output dimension per kernel entry, left without a
value when the input spatial dimension has none, otherwise
`1 + (input + pad_before + pad_after - ((kernel-1)*dilation + 1)) / stride`
with the C++ truncating `int64` division. -/
def convPoolOutDims (input_shape : List Dim)
    (pads dilations strides kernel : List Int) : List Dim :=
  (List.range kernel.length).map (fun i =>
    match input_shape.getD (2 + i) none with
    | none => none
    | some v =>
      let effInput := v + pads.getD i 0 + pads.getD (i + kernel.length) 0
      let effKernel := (kernel.getD i 0 - 1) * dilations.getD i 0 + 1
      some (1 + (effInput - effKernel).tdiv (strides.getD i 0)))

/-- `convPoolTypeAndShapeInference(ctx, use_dilation, require_kernel_shape)`
(defs.cc lines 27-148), translated branch by branch. -/
def convPoolTypeAndShapeInference (ctx : Ctx)
    (use_dilation require_kernel_shape : Bool) : InferResult :=
  let out0 := propagateElemTypeFromInputToOutput ctx
  if hasNInputShapes ctx 1 = false then .ok out0
  else if require_kernel_shape = false ∧ hasNInputShapes ctx 2 = false then .ok out0
  else if ctx.auto_pad then .ok out0
  else
    let input_shape := getInputShape ctx 0
    if input_shape.length < 2 then .err inputRankMsg
    else
      let n := input_shape.length - 2
      match (if use_dilation then
              repeatedAttr ctx.dilations n (List.replicate n 1) dilationsIncorrectMsg
             else AttrRes.vals (List.replicate n 1)) with
      | .fail m => .err m
      | .vals dilations =>
        if getIntAttr ctx.group 1 ≠ 1 then .ok out0
        else
          match repeatedAttr ctx.pads (n * 2) (List.replicate (n * 2) 0) padsIncorrectMsg with
          | .fail m => .err m
          | .vals pads =>
            match repeatedAttr ctx.strides n (List.replicate n 1) stridesIncorrectMsg with
            | .fail m => .err m
            | .vals strides =>
              match resolveKernelShape ctx require_kernel_shape n with
              | .fail m => .err m
              | .skip => .ok out0
              | .vals kernel_shape =>
                if require_kernel_shape then
                  .ok { out0 with shape := some (
                    input_shape.getD 0 none :: input_shape.getD 1 none ::
                      convPoolOutDims input_shape pads dilations strides kernel_shape) }
                else
                  let second := getInputShape ctx 1
                  if second.length < 1 then .err secondInputRankMsg
                  else
                    .ok { out0 with shape := some (
                      input_shape.getD 0 none :: second.getD 0 none ::
                        convPoolOutDims input_shape pads dilations strides kernel_shape) }

/-- Kernel-shape resolution in `convTransposeShapeInference`: identical
to the conv/pool one except that a wrong attribute length and an unknown
trailing dimension of the second input are both silent skips. -/
def resolveKernelShapeT (ctx : Ctx) (n : Nat) : Option (List Int) :=
  match ctx.kernel_shape with
  | some vs => if vs.length = n then some vs else none
  | none =>
    let tail := (getInputShape ctx 1).drop 2
    if tail.all (fun d => d.isSome) then some (tail.map (fun d => d.getD 0))
    else none

/-- The `output_shape` attribute resolution of `convTransposeShapeInference`
(lines 580-585): absent reads as the empty vector, a present attribute of
wrong length is a silent skip. -/
def resolveOutputShapeAttr (ctx : Ctx) (n : Nat) : Option (List Int) :=
  match ctx.output_shape with
  | some vs => if vs.length = n then some vs else none
  | none => some []

/-- The explicit `output_shape` loop of `convTransposeShapeInference`
(lines 605-614): write the attribute values one by one, returning from
the whole function (the remaining axes unwritten) at the first index
where the attribute value is below the input dimension's `dim_value()`. -/
def explicitOutDims (input_shape : List Dim) (vals : List Int) (i : Nat) : List Dim :=
  match vals with
  | [] => []
  | v :: rest =>
    if v < dimValue (input_shape.getD (2 + i) none) then []
    else some v :: explicitOutDims input_shape rest (i + 1)

/-- The formula loop of `convTransposeShapeInference` (lines 618-633):
`stride*(input-1) + output_padding + kernel - pad_before - pad_after`,
the dimension left without a value when the input one has none. -/
def convTransposeOutDims (input_shape : List Dim)
    (pads strides output_padding kernel : List Int) : List Dim :=
  (List.range kernel.length).map (fun i =>
    match input_shape.getD (2 + i) none with
    | none => none
    | some v =>
      some (strides.getD i 0 * (v - 1) + (output_padding.getD i 0 + kernel.getD i 0)
            - pads.getD i 0 - pads.getD (i + kernel.length) 0))

/-- `convTransposeShapeInference(ctx)` (defs.cc lines 516-634),
translated branch by branch; every guard in this function is a silent
`return`, never a failure. -/
def convTransposeShapeInference (ctx : Ctx) : InferResult :=
  let out0 := propagateElemTypeFromInputToOutput ctx
  if hasNInputShapes ctx 2 = false then .ok out0
  else if ctx.auto_pad then .ok out0
  else
    let input_shape := getInputShape ctx 0
    if input_shape.length < 2 then .ok out0
    else
      let n := input_shape.length - 2
      if getIntAttr ctx.group 1 ≠ 1 then .ok out0
      else if ctx.dilations.isSome then .ok out0
      else
        match softRepeatedAttr ctx.pads (n * 2) (List.replicate (n * 2) 0) with
        | none => .ok out0
        | some pads =>
          match softRepeatedAttr ctx.strides n (List.replicate n 1) with
          | none => .ok out0
          | some strides =>
            match resolveKernelShapeT ctx n with
            | none => .ok out0
            | some kernel_shape =>
              match resolveOutputShapeAttr ctx n with
              | none => .ok out0
              | some output_shape =>
                match softRepeatedAttr ctx.output_padding n (List.replicate n 0) with
                | none => .ok out0
                | some output_padding =>
                  let d0 := input_shape.getD 0 none
                  let c1 := (getInputShape ctx 1).getD 1 none
                  if 0 < output_shape.length then
                    .ok { out0 with shape := some (
                      d0 :: c1 :: explicitOutDims input_shape output_shape 0) }
                  else
                    .ok { out0 with shape := some (
                      d0 :: c1 :: convTransposeOutDims input_shape pads strides
                        output_padding kernel_shape) }

/-- `roiPoolTypeShapeInference(ctx)` (defs.cc lines 330-368). -/
def roiPoolTypeShapeInference (ctx : Ctx) : InferResult :=
  let out0 := propagateElemTypeFromInputToOutput ctx
  if hasNInputShapes ctx 2 = false then .ok out0
  else
    let input_shape := getInputShape ctx 0
    let rios_shape := getInputShape ctx 1
    if input_shape.length < 2 then .err roiInputRankMsg
    else if rios_shape.length ≠ 2 then .err roiRoisRankMsg
    else
      let n := input_shape.length - 2
      match ctx.pooled_shape with
      | some pooled =>
        if pooled.length ≠ n then .err pooledLenMsg
        else
          .ok { out0 with shape := some (
            [rios_shape.getD 0 none, input_shape.getD 1 none,
             some (pooled.getD 0 0), some (pooled.getD 1 0)]) }
      | none => .err pooledMissingMsg

/-- `gloablPoolTypeShapeInference(ctx)` (defs.cc lines 744-769), the
source's spelling kept. -/
def gloablPoolTypeShapeInference (ctx : Ctx) : InferResult :=
  let out0 := propagateElemTypeFromInputToOutput ctx
  if hasNInputShapes ctx 1 = false then .ok out0
  else
    let input_shape := getInputShape ctx 0
    if input_shape.length < 2 then .ok out0
    else
      .ok { out0 with shape := some (
        input_shape.getD 0 none :: input_shape.getD 1 none ::
          List.replicate (input_shape.length - 2) (some (1 : Int))) }

/-- One multiplication step of `multiplyDims`: known times known,
anything else unknown. -/
def dimMul (a d : Dim) : Dim :=
  match a, d with
  | some x, some v => some (x * v)
  | _, _ => none

/-- Modelled from the spec: `multiplyDims` (shape-inference helper absent
from `src/`) multiplies the input dimensions of the index range
`[lo, hi)` into one output dimension, `1` on the empty range, with
unknown-ness propagating through the multiplication. -/
def multiplyDims (shape : List Dim) (lo hi : Nat) : Dim :=
  ((shape.drop lo).take (hi - lo)).foldl dimMul (some 1)

def axisInvalidMsg : String := "Invalid value for attribute axis"

/-- The `Flatten` `TypeAndShapeInferenceFunction` (defs.cc lines
1112-1129). -/
def flattenShapeInference (ctx : Ctx) : InferResult :=
  let out0 := propagateElemTypeFromInputToOutput ctx
  if hasNInputShapes ctx 1 = false then .ok out0
  else
    let input_shape := getInputShape ctx 0
    let rank : Int := input_shape.length
    let axis : Int := getIntAttr ctx.axis 1
    if axis > rank ∨ axis < 0 then .err axisInvalidMsg
    else
      .ok { out0 with shape := some (
        [multiplyDims input_shape 0 axis.toNat,
         multiplyDims input_shape axis.toNat input_shape.length]) }

/-- An attribute-free context over no inputs, the base the concrete test
nodes below are built from. -/
def emptyCtx : Ctx :=
  { inputs := [], elemType0 := some 1, auto_pad := false, group := none,
    dilations := none, pads := none, strides := none, kernel_shape := none,
    output_shape := none, output_padding := none, pooled_shape := none,
    axis := none }

/-- AveragePool-style node: spatial input of extent 1 with kernel 4 and
stride 2, the configuration separating truncating from flooring division. -/
def ctxPool1 : Ctx := { emptyCtx with
  inputs := [some [some 1, some 1, some 1]],
  kernel_shape := some [4], strides := some [2] }

/-- AveragePool-style node: 4x4 spatial input, kernel 2, stride 2, no pads. -/
def ctxPool4x4 : Ctx := { emptyCtx with
  inputs := [some [some 1, some 3, some 4, some 4]],
  kernel_shape := some [2, 2], strides := some [2, 2] }

/-- ConvTranspose node with a 3-entry `pads` attribute on a 2D spatial input. -/
def ctxTransBadPads : Ctx := { emptyCtx with
  inputs := [some [some 1, some 1, some 4, some 4], some [some 1, some 1, some 3, some 3]],
  pads := some [0, 0, 0] }

/-- Pooling node with a 3-entry `pads` attribute on a 2D spatial input. -/
def ctxPoolBadPads : Ctx := { emptyCtx with
  inputs := [some [some 1, some 1, some 4, some 4]],
  pads := some [0, 0, 0] }

/-- Conv node with `group = 2` and a malformed 3-entry `dilations`
attribute on a 2D spatial input. -/
def ctxConvGroupBadDil : Ctx := { emptyCtx with
  inputs := [some [some 1, some 1, some 4, some 4], some [some 1, some 1, some 3, some 3]],
  group := some 2, dilations := some [1, 1, 1] }

/-- Pooling node with `group = 2` and otherwise valid shape and attributes. -/
def ctxPoolGroup2 : Ctx := { emptyCtx with
  inputs := [some [some 1, some 1, some 4, some 4]],
  kernel_shape := some [2, 2], group := some 2 }

/-- ConvTranspose node: 3x3 spatial input, 2x2 kernel taken from the
second input, stride 2, defaults elsewhere. -/
def ctxTransFormula : Ctx := { emptyCtx with
  inputs := [some [some 1, some 1, some 3, some 3], some [some 1, some 5, some 2, some 2]],
  strides := some [2, 2] }

/-- The same ConvTranspose node with a `dilations` attribute present. -/
def ctxTransDil : Ctx := { emptyCtx with
  inputs := [some [some 1, some 1, some 3, some 3], some [some 1, some 5, some 2, some 2]],
  strides := some [2, 2], dilations := some [1, 1] }

/-- ConvTranspose node with explicit `output_shape = [5, 2]` over a 3x3
spatial input: the first axis passes the check, the second violates it. -/
def ctxTransOutShape : Ctx := { emptyCtx with
  inputs := [some [some 1, some 1, some 3, some 3], some [some 1, some 5, some 2, some 2]],
  output_shape := some [5, 2] }

/-- Flatten node, input shape (2,3,4), axis 0. -/
def ctxFlat0 : Ctx := { emptyCtx with
  inputs := [some [some 2, some 3, some 4]], axis := some 0 }

/-- Flatten node, input shape (2,3,4), axis 2. -/
def ctxFlat2 : Ctx := { emptyCtx with
  inputs := [some [some 2, some 3, some 4]], axis := some 2 }

/-- Global-pooling node whose spatial extents are unknown. -/
def ctxGlobal : Ctx := { emptyCtx with
  inputs := [some [some 2, some 3, none, none]] }

/-- MaxRoiPool node: data (2,3,9,9), six RoIs, pooled_shape (4,7). -/
def ctxRoi : Ctx := { emptyCtx with
  inputs := [some [some 2, some 3, some 9, some 9], some [some 6, some 5]],
  pooled_shape := some [4, 7] }

/-- Node with no input shapes at all, element type 7. -/
def ctxNoInputs : Ctx := { emptyCtx with elemType0 := some 7 }

/-- ConvTranspose node with one unknown spatial input dimension and a
negative explicit `output_shape` entry. -/
def ctxTransNegOut : Ctx := { emptyCtx with
  inputs := [some [some 1, some 1, none], some [some 1, some 5, some 1]],
  kernel_shape := some [1], output_shape := some [-1] }

/-- ConvTranspose node with unknown spatial input dimensions and
nonnegative explicit `output_shape` entries. -/
def ctxTransUnkOut : Ctx := { emptyCtx with
  inputs := [some [some 1, some 1, none, none], some [some 1, some 5, some 1, some 1]],
  kernel_shape := some [1, 1], output_shape := some [7, 9] }

theorem convPoolOutDims_length (s : List Dim) (p d st k : List Int) :
    (convPoolOutDims s p d st k).length = k.length := by
  simp [convPoolOutDims]

theorem convPoolOutDims_getD (s : List Dim) (p d st k : List Int) (i : Nat)
    (hi : i < k.length) (v : Int) (hv : s.getD (2 + i) none = some v) :
    (convPoolOutDims s p d st k).getD i none =
      some (1 + (v + p.getD i 0 + p.getD (i + k.length) 0 -
        ((k.getD i 0 - 1) * d.getD i 0 + 1)).tdiv (st.getD i 0)) := by
  simp only [convPoolOutDims, List.getD_eq_getElem?_getD, List.getElem?_map,
    List.getElem?_range hi, Option.map_some', Option.getD_some] at hv ⊢
  rw [hv]

theorem convTransposeOutDims_length (s : List Dim) (p st op k : List Int) :
    (convTransposeOutDims s p st op k).length = k.length := by
  simp [convTransposeOutDims]

theorem convTransposeOutDims_getD (s : List Dim) (p st op k : List Int) (i : Nat)
    (hi : i < k.length) (v : Int) (hv : s.getD (2 + i) none = some v) :
    (convTransposeOutDims s p st op k).getD i none =
      some (st.getD i 0 * (v - 1) + (op.getD i 0 + k.getD i 0)
            - p.getD i 0 - p.getD (i + k.length) 0) := by
  simp only [convTransposeOutDims, List.getD_eq_getElem?_getD, List.getElem?_map,
    List.getElem?_range hi, Option.map_some', Option.getD_some] at hv ⊢
  rw [hv]

theorem explicitOutDims_all_ge (s : List Dim) :
    ∀ (vals : List Int) (i : Nat),
      (∀ k, k < vals.length → dimValue (s.getD (2 + i + k) none) ≤ vals.getD k 0) →
      explicitOutDims s vals i = vals.map some := by
  intro vals
  induction vals with
  | nil => intro i _; simp [explicitOutDims]
  | cons v rest ih =>
    intro i h
    have h0 : dimValue (s.getD (2 + i) none) ≤ v := by
      have := h 0 (by simp)
      simpa using this
    rw [explicitOutDims, if_neg (not_lt.mpr h0)]
    simp only [List.map_cons, List.cons.injEq, true_and]
    apply ih (i + 1)
    intro k hk
    have h1 := h (k + 1) (by simpa using Nat.succ_lt_succ hk)
    have he : 2 + i + (k + 1) = 2 + (i + 1) + k := by omega
    rw [he] at h1
    simpa using h1

theorem explicitOutDims_violation (s : List Dim) :
    ∀ (vals : List Int) (j i : Nat), j < vals.length →
      (∀ k, k < j → dimValue (s.getD (2 + i + k) none) ≤ vals.getD k 0) →
      vals.getD j 0 < dimValue (s.getD (2 + i + j) none) →
      explicitOutDims s vals i = (vals.take j).map some := by
  intro vals
  induction vals with
  | nil => intro j i hj; simp at hj
  | cons v rest ih =>
    intro j i hj hpass hviol
    cases j with
    | zero =>
      have hv : v < dimValue (s.getD (2 + i) none) := by simpa using hviol
      rw [explicitOutDims, if_pos hv]
      simp
    | succ j' =>
      have h0 : dimValue (s.getD (2 + i) none) ≤ v := by
        have := hpass 0 (Nat.succ_pos _)
        simpa using this
      rw [explicitOutDims, if_neg (not_lt.mpr h0)]
      simp only [List.take_succ_cons, List.map_cons, List.cons.injEq, true_and]
      apply ih j' (i + 1) (by simpa using Nat.lt_of_succ_lt_succ hj)
      · intro k hk
        have h1 := hpass (k + 1) (Nat.succ_lt_succ hk)
        have he : 2 + i + (k + 1) = 2 + (i + 1) + k := by omega
        rw [he] at h1
        simpa using h1
      · have he : 2 + i + (j' + 1) = 2 + (i + 1) + j' := by omega
        rw [he] at hviol
        simpa using hviol

theorem foldl_dimMul_known : ∀ (l : List Dim) (a : Int),
    l.all (fun d => d.isSome) = true →
    l.foldl dimMul (some a) = some (a * (l.map (fun d => d.getD 0)).prod) := by
  intro l
  induction l with
  | nil => intro a _; simp
  | cons d t ih =>
    intro a h
    simp only [List.all_cons, Bool.and_eq_true] at h
    obtain ⟨hd, ht⟩ := h
    cases d with
    | none => simp at hd
    | some v =>
      simp only [List.foldl_cons, dimMul, List.map_cons, List.prod_cons]
      rw [ih (a * v) ht]
      simp only [Option.getD_some]
      ring_nf

theorem foldl_dimMul_none : ∀ (l : List Dim), l.foldl dimMul none = none := by
  intro l
  induction l with
  | nil => rfl
  | cons d t ih => simp only [List.foldl_cons]; rw [show dimMul none d = none from rfl, ih]

theorem foldl_dimMul_mem_none : ∀ (l : List Dim), none ∈ l →
    ∀ acc : Dim, l.foldl dimMul acc = none := by
  intro l
  induction l with
  | nil => intro h; simp at h
  | cons d t ih =>
    intro h acc
    simp only [List.foldl_cons]
    rcases List.mem_cons.mp h with h0 | hmem
    · subst h0
      rw [show dimMul acc none = none by cases acc <;> rfl]
      exact foldl_dimMul_none t
    · exact ih hmem _

theorem convPool_reaches (ctx : Ctx) (useD reqK : Bool) (ds ps ss ks : List Int)
    (h1 : hasNInputShapes ctx 1 = true)
    (h2 : reqK = true ∨ hasNInputShapes ctx 2 = true)
    (hap : ctx.auto_pad = false)
    (hrank : 2 ≤ (getInputShape ctx 0).length)
    (hdil : (if useD then
              repeatedAttr ctx.dilations ((getInputShape ctx 0).length - 2)
                (List.replicate ((getInputShape ctx 0).length - 2) 1) dilationsIncorrectMsg
             else AttrRes.vals (List.replicate ((getInputShape ctx 0).length - 2) 1)) = AttrRes.vals ds)
    (hgroup : getIntAttr ctx.group 1 = 1)
    (hpads : repeatedAttr ctx.pads (((getInputShape ctx 0).length - 2) * 2)
      (List.replicate (((getInputShape ctx 0).length - 2) * 2) 0) padsIncorrectMsg = AttrRes.vals ps)
    (hstr : repeatedAttr ctx.strides ((getInputShape ctx 0).length - 2)
      (List.replicate ((getInputShape ctx 0).length - 2) 1) stridesIncorrectMsg = AttrRes.vals ss)
    (hker : resolveKernelShape ctx reqK ((getInputShape ctx 0).length - 2) = KernelRes.vals ks)
    (hsec : reqK = false → 1 ≤ (getInputShape ctx 1).length) :
    convPoolTypeAndShapeInference ctx useD reqK =
      .ok { elemType := ctx.elemType0, shape := some (
        (getInputShape ctx 0).getD 0 none ::
         (if reqK then (getInputShape ctx 0).getD 1 none
          else (getInputShape ctx 1).getD 0 none) ::
         convPoolOutDims (getInputShape ctx 0) ps ds ss ks) } := by
  have hr2 : ¬ ((getInputShape ctx 0).length < 2) := not_lt.mpr hrank
  have hc2 : ¬ (reqK = false ∧ hasNInputShapes ctx 2 = false) := by
    rcases h2 with h | h <;> simp [h]
  unfold convPoolTypeAndShapeInference
  rw [h1]
  simp only [Bool.true_eq_false, if_false, if_neg hc2, hap, if_neg hr2, ite_false]
  rw [hdil, hgroup]
  simp only [ne_eq, not_true_eq_false, ite_false]
  rw [hpads, hstr, hker]
  cases reqK with
  | true =>
    simp [propagateElemTypeFromInputToOutput]
  | false =>
    have hs : ¬ ((getInputShape ctx 1).length < 1) := not_lt.mpr (hsec rfl)
    have hnil : ¬ getInputShape ctx 1 = [] := by
      intro h
      exact hs (by simp [h])
    simp [propagateElemTypeFromInputToOutput, if_neg hs, hnil]

theorem convTranspose_reaches (ctx : Ctx) (ps ss ops ks os : List Int)
    (h1 : hasNInputShapes ctx 2 = true)
    (hap : ctx.auto_pad = false)
    (hrank : 2 ≤ (getInputShape ctx 0).length)
    (hgroup : getIntAttr ctx.group 1 = 1)
    (hdil : ctx.dilations = none)
    (hpads : softRepeatedAttr ctx.pads (((getInputShape ctx 0).length - 2) * 2)
      (List.replicate (((getInputShape ctx 0).length - 2) * 2) 0) = some ps)
    (hstr : softRepeatedAttr ctx.strides ((getInputShape ctx 0).length - 2)
      (List.replicate ((getInputShape ctx 0).length - 2) 1) = some ss)
    (hker : resolveKernelShapeT ctx ((getInputShape ctx 0).length - 2) = some ks)
    (hosh : resolveOutputShapeAttr ctx ((getInputShape ctx 0).length - 2) = some os)
    (hopad : softRepeatedAttr ctx.output_padding ((getInputShape ctx 0).length - 2)
      (List.replicate ((getInputShape ctx 0).length - 2) 0) = some ops) :
    convTransposeShapeInference ctx =
      .ok { elemType := ctx.elemType0, shape := some (
        (getInputShape ctx 0).getD 0 none ::
        (getInputShape ctx 1).getD 1 none ::
        (if 0 < os.length then explicitOutDims (getInputShape ctx 0) os 0
         else convTransposeOutDims (getInputShape ctx 0) ps ss ops ks)) } := by
  have hr2 : ¬ ((getInputShape ctx 0).length < 2) := not_lt.mpr hrank
  unfold convTransposeShapeInference
  rw [h1]
  simp only [Bool.true_eq_false, if_false, hap, ite_false, if_neg hr2]
  rw [hgroup]
  simp only [ne_eq, not_true_eq_false, ite_false, hdil, Option.isSome_none,
    Bool.false_eq_true, if_false]
  rw [hpads, hstr, hker, hosh, hopad]
  by_cases h : 0 < os.length <;> simp [propagateElemTypeFromInputToOutput, h]

/-- C1 counterexample: a pooling node with spatial extent 1, kernel 4,
stride 2, pad 0 — well within the claim's hypotheses — gets output
spatial dimension 0 from the code (truncating division), while the
claim's floor formula floor((1+0+0-4)/2)+1 evaluates to -1. -/
theorem C1_counterexample :
    convPoolTypeAndShapeInference ctxPool1 false true =
      .ok { elemType := some 1, shape := some [some 1, some 1, some 0] } ∧
    Int.fdiv (1 + 0 + 0 - ((4 - 1) * 1 + 1)) 2 + 1 = -1 ∧ ((0 : Int) ≠ -1) := by
  refine ⟨by decide, by decide, by decide⟩

/-- C1 (amended): for every sliding-window operator (Conv, AveragePool,
MaxPool, LpPool) reaching the spatial computation — input shape present
with rank at least 2, no auto_pad, group 1, attributes resolved with
well-formed lengths, and for Conv a second input shape of rank at least 1
— each output spatial dimension with a known input extent equals
floor((input + pad_before + pad_after - effective_kernel)/stride) + 1
with effective_kernel = (kernel-1)*dilation + 1, PROVIDED the stride is
positive and the padded input is at least the effective kernel; in
general the code truncates toward zero rather than flooring. -/
theorem C1_slidingWindow_formula (ctx : Ctx) (useD reqK : Bool) (ds ps ss ks : List Int)
    (h1 : hasNInputShapes ctx 1 = true)
    (h2 : reqK = true ∨ hasNInputShapes ctx 2 = true)
    (hap : ctx.auto_pad = false)
    (hrank : 2 ≤ (getInputShape ctx 0).length)
    (hdil : (if useD then
              repeatedAttr ctx.dilations ((getInputShape ctx 0).length - 2)
                (List.replicate ((getInputShape ctx 0).length - 2) 1) dilationsIncorrectMsg
             else AttrRes.vals (List.replicate ((getInputShape ctx 0).length - 2) 1)) = AttrRes.vals ds)
    (hgroup : getIntAttr ctx.group 1 = 1)
    (hpads : repeatedAttr ctx.pads (((getInputShape ctx 0).length - 2) * 2)
      (List.replicate (((getInputShape ctx 0).length - 2) * 2) 0) padsIncorrectMsg = AttrRes.vals ps)
    (hstr : repeatedAttr ctx.strides ((getInputShape ctx 0).length - 2)
      (List.replicate ((getInputShape ctx 0).length - 2) 1) stridesIncorrectMsg = AttrRes.vals ss)
    (hker : resolveKernelShape ctx reqK ((getInputShape ctx 0).length - 2) = KernelRes.vals ks)
    (hsec : reqK = false → 1 ≤ (getInputShape ctx 1).length) :
    ∃ spatial : List Dim,
      convPoolTypeAndShapeInference ctx useD reqK =
        .ok { elemType := ctx.elemType0, shape := some (
          (getInputShape ctx 0).getD 0 none ::
          (if reqK then (getInputShape ctx 0).getD 1 none
           else (getInputShape ctx 1).getD 0 none) :: spatial) } ∧
      spatial.length = ks.length ∧
      ∀ i, i < ks.length → ∀ v, (getInputShape ctx 0).getD (2 + i) none = some v →
        0 < ss.getD i 0 →
        0 ≤ v + ps.getD i 0 + ps.getD (i + ks.length) 0 -
          ((ks.getD i 0 - 1) * ds.getD i 0 + 1) →
        spatial.getD i none =
          some (Int.fdiv (v + ps.getD i 0 + ps.getD (i + ks.length) 0 -
            ((ks.getD i 0 - 1) * ds.getD i 0 + 1)) (ss.getD i 0) + 1) := by
  refine ⟨convPoolOutDims (getInputShape ctx 0) ps ds ss ks,
    convPool_reaches ctx useD reqK ds ps ss ks h1 h2 hap hrank hdil hgroup hpads hstr hker hsec,
    convPoolOutDims_length _ _ _ _ _, ?_⟩
  intro i hi v hv hpos hnn
  rw [convPoolOutDims_getD _ _ _ _ _ i hi v hv]
  rw [Int.tdiv_eq_ediv hnn (le_of_lt hpos), Int.fdiv_eq_ediv _ (le_of_lt hpos)]
  rw [Int.add_comm]

/-- C1 witness: AveragePool, kernel 2, stride 2, pad 0 on a 4x4 spatial
input: the theorem applies and each output spatial dimension is
floor((4+0+0-2)/2)+1 = 2. -/
theorem C1_witness :
    ∃ spatial : List Dim,
      convPoolTypeAndShapeInference ctxPool4x4 false true =
        .ok { elemType := some 1, shape := some (some 1 :: some 3 :: spatial) } ∧
      spatial.length = 2 ∧
      ∀ i, i < 2 → ∀ v : Int, (getInputShape ctxPool4x4 0).getD (2 + i) none = some v →
        (0 : Int) < List.getD ([2, 2] : List Int) i 0 →
        0 ≤ v + List.getD ([0, 0, 0, 0] : List Int) i 0 + List.getD ([0, 0, 0, 0] : List Int) (i + 2) 0 -
          ((List.getD ([2, 2] : List Int) i 0 - 1) * List.getD ([1, 1] : List Int) i 0 + 1) →
        spatial.getD i none =
          some (Int.fdiv (v + List.getD ([0, 0, 0, 0] : List Int) i 0 + List.getD ([0, 0, 0, 0] : List Int) (i + 2) 0 -
            ((List.getD ([2, 2] : List Int) i 0 - 1) * List.getD ([1, 1] : List Int) i 0 + 1)) (List.getD ([2, 2] : List Int) i 0) + 1) :=
  C1_slidingWindow_formula ctxPool4x4 false true [1, 1] [0, 0, 0, 0] [2, 2] [2, 2]
    (by decide) (Or.inl rfl) rfl (by decide) (by decide) (by decide) (by decide)
    (by decide) (by decide) (by decide)

/-- C2 counterexample: a ConvTranspose node — an operator node on which
shape inference runs — with a 3-entry `pads` attribute on a 2D spatial
input returns normally with no output shape written: a silent skip, not
the hard failure the claim asserts for every operator node. -/
theorem C2_counterexample :
    ctxTransBadPads.pads = some [0, 0, 0] ∧
    convTransposeShapeInference ctxTransBadPads =
      .ok { elemType := some 1, shape := none } ∧
    (convTransposeShapeInference ctxTransBadPads).isErr = false := by
  refine ⟨rfl, by decide, by decide⟩

/-- C2 (amended): for the conv/pool operators (Conv, AveragePool,
MaxPool, LpPool) whose inference reaches attribute validation (input
shape present, no auto_pad, rank at least 2), a mismatched `dilations`
attribute on a dilation-supporting operator is a hard failure (checked
even before the group test); and with group 1 a mismatched `pads`
attribute is a hard failure, as is (pads well-formed) a mismatched
`strides` attribute and (pads and strides well-formed) a mismatched
`kernel_shape` attribute.  ConvTranspose is not covered: there a
mismatched length is a silent skip (see the counterexample). -/
theorem C2_attrLength_hardFailure (ctx : Ctx) (useD reqK : Bool)
    (h1 : hasNInputShapes ctx 1 = true)
    (h2 : reqK = true ∨ hasNInputShapes ctx 2 = true)
    (hap : ctx.auto_pad = false)
    (hrank : 2 ≤ (getInputShape ctx 0).length) :
    (∀ vs, useD = true → ctx.dilations = some vs →
      vs.length ≠ (getInputShape ctx 0).length - 2 →
      convPoolTypeAndShapeInference ctx useD reqK = .err dilationsIncorrectMsg) ∧
    (∀ ds, (if useD then
        repeatedAttr ctx.dilations ((getInputShape ctx 0).length - 2)
          (List.replicate ((getInputShape ctx 0).length - 2) 1) dilationsIncorrectMsg
       else AttrRes.vals (List.replicate ((getInputShape ctx 0).length - 2) 1)) = AttrRes.vals ds →
      getIntAttr ctx.group 1 = 1 →
      ((∀ vs, ctx.pads = some vs → vs.length ≠ ((getInputShape ctx 0).length - 2) * 2 →
          convPoolTypeAndShapeInference ctx useD reqK = .err padsIncorrectMsg) ∧
       (∀ ps, repeatedAttr ctx.pads (((getInputShape ctx 0).length - 2) * 2)
            (List.replicate (((getInputShape ctx 0).length - 2) * 2) 0) padsIncorrectMsg
            = AttrRes.vals ps →
         ((∀ vs, ctx.strides = some vs → vs.length ≠ (getInputShape ctx 0).length - 2 →
             convPoolTypeAndShapeInference ctx useD reqK = .err stridesIncorrectMsg) ∧
          (∀ ss, repeatedAttr ctx.strides ((getInputShape ctx 0).length - 2)
               (List.replicate ((getInputShape ctx 0).length - 2) 1) stridesIncorrectMsg
               = AttrRes.vals ss →
            ∀ vs, ctx.kernel_shape = some vs →
              vs.length ≠ (getInputShape ctx 0).length - 2 →
              convPoolTypeAndShapeInference ctx useD reqK = .err kernelIncorrectMsg))))) := by
  have hr2 : ¬ ((getInputShape ctx 0).length < 2) := not_lt.mpr hrank
  have hc2 : ¬ (reqK = false ∧ hasNInputShapes ctx 2 = false) := by
    rcases h2 with h | h <;> simp [h]
  constructor
  · intro vs hu hvs hlen
    unfold convPoolTypeAndShapeInference
    rw [h1]
    simp only [Bool.true_eq_false, if_false, if_neg hc2, hap, ite_false, if_neg hr2]
    subst hu
    simp only [ite_true]
    rw [hvs]
    simp [repeatedAttr, if_neg hlen]
  · intro ds hdil hgroup
    refine ⟨?_, ?_⟩
    · intro vs hvs hlen
      unfold convPoolTypeAndShapeInference
      rw [h1]
      simp only [Bool.true_eq_false, if_false, if_neg hc2, hap, ite_false, if_neg hr2]
      rw [hdil, hgroup]
      simp only [ne_eq, not_true_eq_false, ite_false]
      rw [hvs]
      simp [repeatedAttr, if_neg hlen]
    · intro ps hpads
      refine ⟨?_, ?_⟩
      · intro vs hvs hlen
        unfold convPoolTypeAndShapeInference
        rw [h1]
        simp only [Bool.true_eq_false, if_false, if_neg hc2, hap, ite_false, if_neg hr2]
        rw [hdil, hgroup]
        simp only [ne_eq, not_true_eq_false, ite_false]
        rw [hpads, hvs]
        simp [repeatedAttr, if_neg hlen]
      · intro ss hstr vs hvs hlen
        unfold convPoolTypeAndShapeInference
        rw [h1]
        simp only [Bool.true_eq_false, if_false, if_neg hc2, hap, ite_false, if_neg hr2]
        rw [hdil, hgroup]
        simp only [ne_eq, not_true_eq_false, ite_false]
        rw [hpads, hstr]
        unfold resolveKernelShape
        rw [hvs]
        simp [if_neg hlen]

/-- C2 witness: a pooling node with a 3-entry `pads` attribute on a 2D
spatial input is a hard failure. -/
theorem C2_witness :
    ctxPoolBadPads.pads = some [0, 0, 0] ∧
    convPoolTypeAndShapeInference ctxPoolBadPads false true = .err padsIncorrectMsg :=
  ⟨rfl,
    (((C2_attrLength_hardFailure ctxPoolBadPads false true (by decide) (Or.inl rfl) rfl
      (by decide)).2 [1, 1] (by decide) (by decide)).1 [0, 0, 0] rfl (by decide))⟩

/-- C3 counterexample: a Conv node with `group = 2` AND a malformed
3-entry `dilations` attribute on a 2D spatial input hard-fails (the
dilations length check runs before the group test), contradicting the
claim that every conv/pool node with group not 1 returns without error. -/
theorem C3_counterexample :
    ctxConvGroupBadDil.group = some 2 ∧
    convPoolTypeAndShapeInference ctxConvGroupBadDil true false =
      .err dilationsIncorrectMsg ∧
    (convPoolTypeAndShapeInference ctxConvGroupBadDil true false).isErr = true := by
  refine ⟨rfl, by decide, by decide⟩

/-- C3 (amended): for conv/pool nodes whose group attribute is present
and not 1, inference returns without error and writes no output shape
dimension, PROVIDED the checks that precede the group test pass: the
input (when its shape is present) has rank at least 2, and any
`dilations` attribute on a dilation-supporting operator has well-formed
length.  For ConvTranspose, group not 1 always yields the silent skip,
with no side condition. -/
theorem C3_group_silentSkip :
    (∀ (ctx : Ctx) (useD reqK : Bool) (g : Int), ctx.group = some g → g ≠ 1 →
      (hasNInputShapes ctx 1 = true → 2 ≤ (getInputShape ctx 0).length) →
      (useD = true → ∀ vs, ctx.dilations = some vs →
        vs.length = (getInputShape ctx 0).length - 2) →
      convPoolTypeAndShapeInference ctx useD reqK =
        .ok { elemType := ctx.elemType0, shape := none }) ∧
    (∀ (ctx : Ctx) (g : Int), ctx.group = some g → g ≠ 1 →
      convTransposeShapeInference ctx =
        .ok { elemType := ctx.elemType0, shape := none }) := by
  constructor
  · intro ctx useD reqK g hg hne hrk hdl
    unfold convPoolTypeAndShapeInference
    cases hN1 : hasNInputShapes ctx 1 with
    | false => simp [propagateElemTypeFromInputToOutput]
    | true =>
      have hr2 : ¬ ((getInputShape ctx 0).length < 2) := not_lt.mpr (hrk hN1)
      by_cases hc2 : (reqK = false ∧ hasNInputShapes ctx 2 = false)
      · simp [hc2, propagateElemTypeFromInputToOutput]
      · cases hA : ctx.auto_pad with
        | true => simp [hc2, propagateElemTypeFromInputToOutput]
        | false =>
          obtain ⟨ds, hds⟩ : ∃ ds, (if useD then
              repeatedAttr ctx.dilations ((getInputShape ctx 0).length - 2)
                (List.replicate ((getInputShape ctx 0).length - 2) 1) dilationsIncorrectMsg
            else AttrRes.vals (List.replicate ((getInputShape ctx 0).length - 2) 1))
              = AttrRes.vals ds := by
            cases useD with
            | false => exact ⟨List.replicate ((getInputShape ctx 0).length - 2) 1, by simp⟩
            | true =>
              cases hd : ctx.dilations with
              | none =>
                exact ⟨List.replicate ((getInputShape ctx 0).length - 2) 1,
                  by simp [repeatedAttr, hd]⟩
              | some vs =>
                exact ⟨vs, by simp [repeatedAttr, hd, hdl rfl vs hd]⟩
          have hgr : getIntAttr ctx.group 1 = g := by simp [getIntAttr, hg]
          simp only [Bool.true_eq_false, if_false, if_neg hc2, ite_false, if_neg hr2]
          rw [hds, hgr]
          simp [hne, propagateElemTypeFromInputToOutput]
  · intro ctx g hg hne
    unfold convTransposeShapeInference
    cases hN : hasNInputShapes ctx 2 with
    | false => simp [propagateElemTypeFromInputToOutput]
    | true =>
      cases hA : ctx.auto_pad with
      | true => simp [propagateElemTypeFromInputToOutput]
      | false =>
        by_cases hr : (getInputShape ctx 0).length < 2
        · simp [hr, propagateElemTypeFromInputToOutput]
        · have hgr : getIntAttr ctx.group 1 = g := by simp [getIntAttr, hg]
          simp [hr, hgr, hne, propagateElemTypeFromInputToOutput]

/-- C3 witness: a pooling node with valid shapes and attributes but
`group = 2` returns normally with no output shape written. -/
theorem C3_witness :
    ctxPoolGroup2.group = some 2 ∧
    convPoolTypeAndShapeInference ctxPoolGroup2 false true =
      .ok { elemType := some 1, shape := none } :=
  ⟨rfl, (C3_group_silentSkip.1 ctxPoolGroup2 false true 2 rfl (by decide)
    (fun _ => by decide) (by decide))⟩

/-- C4: for ConvTranspose without auto_pad, without dilations, group 1,
no output_shape attribute, both input shapes present (rank at least 2,
kernel resolved) and well-formed attribute lengths, each known output
spatial dimension equals stride*(input-1) + output_padding + kernel -
pad_before - pad_after, with the batch dimension copied from the first
input; and whenever auto_pad is present, a dilations attribute is
present, or group is not 1, inference exits early writing no shape. -/
theorem C4_convTranspose_formula :
    (∀ (ctx : Ctx) (ps ss ops ks : List Int),
      hasNInputShapes ctx 2 = true →
      ctx.auto_pad = false →
      2 ≤ (getInputShape ctx 0).length →
      getIntAttr ctx.group 1 = 1 →
      ctx.dilations = none →
      ctx.output_shape = none →
      softRepeatedAttr ctx.pads (((getInputShape ctx 0).length - 2) * 2)
        (List.replicate (((getInputShape ctx 0).length - 2) * 2) 0) = some ps →
      softRepeatedAttr ctx.strides ((getInputShape ctx 0).length - 2)
        (List.replicate ((getInputShape ctx 0).length - 2) 1) = some ss →
      resolveKernelShapeT ctx ((getInputShape ctx 0).length - 2) = some ks →
      softRepeatedAttr ctx.output_padding ((getInputShape ctx 0).length - 2)
        (List.replicate ((getInputShape ctx 0).length - 2) 0) = some ops →
      ∃ spatial : List Dim,
        convTransposeShapeInference ctx =
          .ok { elemType := ctx.elemType0, shape := some (
            (getInputShape ctx 0).getD 0 none ::
            (getInputShape ctx 1).getD 1 none :: spatial) } ∧
        spatial.length = ks.length ∧
        ∀ i, i < ks.length → ∀ v, (getInputShape ctx 0).getD (2 + i) none = some v →
          spatial.getD i none =
            some (ss.getD i 0 * (v - 1) + ops.getD i 0 + ks.getD i 0
              - ps.getD i 0 - ps.getD (i + ks.length) 0)) ∧
    (∀ ctx : Ctx, (ctx.auto_pad = true ∨ ctx.dilations.isSome = true ∨
        getIntAttr ctx.group 1 ≠ 1) →
      convTransposeShapeInference ctx =
        .ok { elemType := ctx.elemType0, shape := none }) := by
  constructor
  · intro ctx ps ss ops ks h1 hap hrank hgroup hdil hosh hpads hstr hker hopad
    have hosh2 : resolveOutputShapeAttr ctx ((getInputShape ctx 0).length - 2)
        = some [] := by
      simp [resolveOutputShapeAttr, hosh]
    refine ⟨convTransposeOutDims (getInputShape ctx 0) ps ss ops ks, ?_,
      convTransposeOutDims_length _ _ _ _ _, ?_⟩
    · have h := convTranspose_reaches ctx ps ss ops ks [] h1 hap hrank hgroup hdil
        hpads hstr hker hosh2 hopad
      simpa using h
    · intro i hi v hv
      rw [convTransposeOutDims_getD _ _ _ _ _ i hi v hv]
      congr 1
      ring
  · intro ctx hcond
    unfold convTransposeShapeInference
    cases hN : hasNInputShapes ctx 2 with
    | false => simp [propagateElemTypeFromInputToOutput]
    | true =>
      cases hA : ctx.auto_pad with
      | true => simp [propagateElemTypeFromInputToOutput]
      | false =>
        by_cases hr : (getInputShape ctx 0).length < 2
        · simp [hr, propagateElemTypeFromInputToOutput]
        · by_cases hg : getIntAttr ctx.group 1 = 1
          · have hds : ctx.dilations.isSome = true := by
              rcases hcond with h | h | h
              · rw [hA] at h; cases h
              · exact h
              · exact absurd hg h
            simp [hr, hg, hds, propagateElemTypeFromInputToOutput]
          · simp [hr, hg, propagateElemTypeFromInputToOutput]

/-- C4 witness: ConvTranspose on a 3x3 spatial input with a 2x2 kernel
read from the second input and stride 2: each output spatial dimension
is 2*(3-1)+0+2-0-0 = 6; and the same node with a dilations attribute
present skips silently. -/
theorem C4_witness :
    (∃ spatial : List Dim,
      convTransposeShapeInference ctxTransFormula =
        .ok { elemType := some 1, shape := some (some 1 :: some 5 :: spatial) } ∧
      spatial.length = 2 ∧
      ∀ i, i < 2 → ∀ v : Int,
        (getInputShape ctxTransFormula 0).getD (2 + i) none = some v →
        spatial.getD i none =
          some (List.getD ([2, 2] : List Int) i 0 * (v - 1) +
            List.getD ([0, 0] : List Int) i 0 + List.getD ([2, 2] : List Int) i 0 -
            List.getD ([0, 0, 0, 0] : List Int) i 0 -
            List.getD ([0, 0, 0, 0] : List Int) (i + 2) 0)) ∧
    convTransposeShapeInference ctxTransDil =
      .ok { elemType := some 1, shape := none } :=
  ⟨C4_convTranspose_formula.1 ctxTransFormula [0, 0, 0, 0] [2, 2] [0, 0] [2, 2]
      (by decide) rfl (by decide) (by decide) rfl rfl (by decide) (by decide)
      (by decide) (by decide),
   C4_convTranspose_formula.2 ctxTransDil (Or.inr (Or.inl (by decide)))⟩

/-- C5: for ConvTranspose reaching the computation with an explicit
`output_shape` attribute of length equal to the (positive) spatial rank,
the written spatial dimensions are the attribute values taken directly,
validated only by output_shape[i] being at least the input dimension:
when every axis passes, all attribute values are written; at the first
violating axis inference aborts, writing no dimension at that axis (nor
any later one) and no error. -/
theorem C5_convTranspose_outputShapeAttr (ctx : Ctx) (ps ss ops ks os : List Int)
    (h1 : hasNInputShapes ctx 2 = true)
    (hap : ctx.auto_pad = false)
    (hrank : 2 ≤ (getInputShape ctx 0).length)
    (hgroup : getIntAttr ctx.group 1 = 1)
    (hdil : ctx.dilations = none)
    (hpads : softRepeatedAttr ctx.pads (((getInputShape ctx 0).length - 2) * 2)
      (List.replicate (((getInputShape ctx 0).length - 2) * 2) 0) = some ps)
    (hstr : softRepeatedAttr ctx.strides ((getInputShape ctx 0).length - 2)
      (List.replicate ((getInputShape ctx 0).length - 2) 1) = some ss)
    (hker : resolveKernelShapeT ctx ((getInputShape ctx 0).length - 2) = some ks)
    (hosh : ctx.output_shape = some os)
    (hlen : os.length = (getInputShape ctx 0).length - 2)
    (hpos : 0 < os.length)
    (hopad : softRepeatedAttr ctx.output_padding ((getInputShape ctx 0).length - 2)
      (List.replicate ((getInputShape ctx 0).length - 2) 0) = some ops) :
    convTransposeShapeInference ctx =
      .ok { elemType := ctx.elemType0, shape := some (
        (getInputShape ctx 0).getD 0 none ::
        (getInputShape ctx 1).getD 1 none ::
        explicitOutDims (getInputShape ctx 0) os 0) } ∧
    ((∀ k, k < os.length →
        dimValue ((getInputShape ctx 0).getD (2 + k) none) ≤ os.getD k 0) →
      explicitOutDims (getInputShape ctx 0) os 0 = os.map some) ∧
    (∀ j, j < os.length →
      (∀ k, k < j →
        dimValue ((getInputShape ctx 0).getD (2 + k) none) ≤ os.getD k 0) →
      os.getD j 0 < dimValue ((getInputShape ctx 0).getD (2 + j) none) →
      explicitOutDims (getInputShape ctx 0) os 0 = (os.take j).map some) := by
  have hosh2 : resolveOutputShapeAttr ctx ((getInputShape ctx 0).length - 2)
      = some os := by
    simp [resolveOutputShapeAttr, hosh, hlen]
  refine ⟨?_, ?_, ?_⟩
  · have h := convTranspose_reaches ctx ps ss ops ks os h1 hap hrank hgroup hdil
      hpads hstr hker hosh2 hopad
    rw [if_pos hpos] at h
    exact h
  · intro hall
    apply explicitOutDims_all_ge
    intro k hk
    simpa using hall k hk
  · intro j hj hpass hviol
    exact explicitOutDims_violation _ os j 0 hj
      (fun k hk => by simpa using hpass k hk) (by simpa using hviol)

/-- C5 witness: ConvTranspose over 3x3 spatial input with
`output_shape = [5, 2]`: axis 0 passes (5 at least 3) and is written
directly; axis 1 violates (2 below 3), so inference stops having written
only the batch, channel and first spatial dimension. -/
theorem C5_witness :
    convTransposeShapeInference ctxTransOutShape =
      .ok { elemType := some 1, shape := some (some 1 :: some 5 ::
        explicitOutDims (getInputShape ctxTransOutShape 0) [5, 2] 0) } ∧
    explicitOutDims (getInputShape ctxTransOutShape 0) [5, 2] 0 =
      (List.take 1 [5, 2]).map some := by
  have h := C5_convTranspose_outputShapeAttr ctxTransOutShape [0, 0, 0, 0] [1, 1]
    [0, 0] [2, 2] [5, 2] (by decide) rfl (by decide) (by decide) rfl (by decide)
    (by decide) (by decide) rfl (by decide) (by decide) (by decide)
  exact ⟨h.1, h.2.2 1 (by decide) (by decide) (by decide)⟩

/-- C6: for Flatten on an input of known rank with attribute axis
(default 1): an axis below 0 or above the rank hard-fails; otherwise the
output has exactly rank 2 with dim0 the product of the input dimensions
below axis and dim1 the product of those from axis on, where the product
of an all-known window is the literal product and any unknown factor
makes the product dimension unknown. -/
theorem C6_flatten (ctx : Ctx) (shape : List Dim) (axis : Int)
    (h1 : hasNInputShapes ctx 1 = true)
    (hs : getInputShape ctx 0 = shape)
    (ha : getIntAttr ctx.axis 1 = axis) :
    ((axis < 0 ∨ (shape.length : Int) < axis) →
      flattenShapeInference ctx = .err axisInvalidMsg) ∧
    (0 ≤ axis → axis ≤ (shape.length : Int) →
      flattenShapeInference ctx =
        .ok { elemType := ctx.elemType0, shape := some (
          [multiplyDims shape 0 axis.toNat,
           multiplyDims shape axis.toNat shape.length]) }) ∧
    (∀ (s : List Dim) (lo hi : Nat),
      ((s.drop lo).take (hi - lo)).all (fun d => d.isSome) = true →
      multiplyDims s lo hi =
        some (((s.drop lo).take (hi - lo)).map (fun d => d.getD 0)).prod) ∧
    (∀ (s : List Dim) (lo hi : Nat),
      none ∈ (s.drop lo).take (hi - lo) → multiplyDims s lo hi = none) := by
  refine ⟨?_, ?_, ?_, ?_⟩
  · intro hout
    unfold flattenShapeInference
    rw [h1]
    simp only [Bool.true_eq_false, if_false, ite_false, hs, ha]
    rcases hout with h | h
    · rw [if_pos (Or.inr h)]
    · rw [if_pos (Or.inl h)]
  · intro h0 hle
    unfold flattenShapeInference
    rw [h1]
    simp only [Bool.true_eq_false, if_false, ite_false, hs, ha]
    rw [if_neg (not_or.mpr ⟨not_lt.mpr hle, not_lt.mpr h0⟩)]
    simp [propagateElemTypeFromInputToOutput]
  · intro s lo hi h
    unfold multiplyDims
    rw [foldl_dimMul_known _ 1 h, one_mul]
  · intro s lo hi h
    unfold multiplyDims
    exact foldl_dimMul_mem_none _ h _

/-- C6 witness: Flatten on shape (2,3,4) with axis 0 yields (1, 24) and
with axis 2 yields (6, 4). -/
theorem C6_witness :
    flattenShapeInference ctxFlat0 =
      .ok { elemType := some 1, shape := some (
        [multiplyDims [some 2, some 3, some 4] 0 0,
         multiplyDims [some 2, some 3, some 4] 0 3]) } ∧
    multiplyDims [some 2, some 3, some 4] 0 0 = some 1 ∧
    multiplyDims [some 2, some 3, some 4] 0 3 = some 24 ∧
    flattenShapeInference ctxFlat2 =
      .ok { elemType := some 1, shape := some (
        [multiplyDims [some 2, some 3, some 4] 0 2,
         multiplyDims [some 2, some 3, some 4] 2 3]) } ∧
    multiplyDims [some 2, some 3, some 4] 0 2 = some 6 ∧
    multiplyDims [some 2, some 3, some 4] 2 3 = some 4 := by
  refine ⟨(C6_flatten ctxFlat0 [some 2, some 3, some 4] 0 (by decide) rfl rfl).2.1
      (by decide) (by decide),
    by decide, by decide,
    (C6_flatten ctxFlat2 [some 2, some 3, some 4] 2 (by decide) rfl rfl).2.1
      (by decide) (by decide),
    by decide, by decide⟩

/-- C7: for every global pooling operator on an input with known rank at
least 2, the output shape is the batch and channel dimensions copied
verbatim followed by exactly rank-2 dimensions each set to 1, regardless
of whether the spatial dimensions are known. -/
theorem C7_globalPool (ctx : Ctx)
    (h1 : hasNInputShapes ctx 1 = true)
    (hrank : 2 ≤ (getInputShape ctx 0).length) :
    gloablPoolTypeShapeInference ctx =
      .ok { elemType := ctx.elemType0, shape := some (
        (getInputShape ctx 0).getD 0 none :: (getInputShape ctx 0).getD 1 none ::
        List.replicate ((getInputShape ctx 0).length - 2) (some 1)) } := by
  unfold gloablPoolTypeShapeInference
  rw [h1]
  simp [not_lt.mpr hrank, propagateElemTypeFromInputToOutput]

/-- C7 witness: global pooling on shape (2,3,?,?) with both spatial
extents unknown yields (2,3,1,1). -/
theorem C7_witness :
    gloablPoolTypeShapeInference ctxGlobal =
      .ok { elemType := some 1, shape := some [some 2, some 3, some 1, some 1] } :=
  C7_globalPool ctxGlobal (by decide) (by decide)

/-- C8: for MaxRoiPool given two input shapes: a first input of rank
below 2, a second input of rank other than 2, an absent `pooled_shape`
attribute, or one of mismatched length, is a hard failure; otherwise the
output shape is [second input's leading dim, first input's second dim,
pooled_shape[0], pooled_shape[1]], with the first two copied verbatim
(possibly unknown) and the last two taken from the attribute. -/
theorem C8_roiPool (ctx : Ctx)
    (h2 : hasNInputShapes ctx 2 = true) :
    ((getInputShape ctx 0).length < 2 →
      roiPoolTypeShapeInference ctx = .err roiInputRankMsg) ∧
    (2 ≤ (getInputShape ctx 0).length → (getInputShape ctx 1).length ≠ 2 →
      roiPoolTypeShapeInference ctx = .err roiRoisRankMsg) ∧
    (2 ≤ (getInputShape ctx 0).length → (getInputShape ctx 1).length = 2 →
      ctx.pooled_shape = none →
      roiPoolTypeShapeInference ctx = .err pooledMissingMsg) ∧
    (∀ ps2, 2 ≤ (getInputShape ctx 0).length → (getInputShape ctx 1).length = 2 →
      ctx.pooled_shape = some ps2 →
      ps2.length ≠ (getInputShape ctx 0).length - 2 →
      roiPoolTypeShapeInference ctx = .err pooledLenMsg) ∧
    (∀ ps2, 2 ≤ (getInputShape ctx 0).length → (getInputShape ctx 1).length = 2 →
      ctx.pooled_shape = some ps2 →
      ps2.length = (getInputShape ctx 0).length - 2 →
      2 ≤ ps2.length →
      roiPoolTypeShapeInference ctx =
        .ok { elemType := ctx.elemType0, shape := some (
          [(getInputShape ctx 1).getD 0 none, (getInputShape ctx 0).getD 1 none,
           some (ps2.getD 0 0), some (ps2.getD 1 0)]) }) := by
  refine ⟨?_, ?_, ?_, ?_, ?_⟩
  · intro hlt
    unfold roiPoolTypeShapeInference
    rw [h2]
    simp [hlt]
  · intro hge hne
    unfold roiPoolTypeShapeInference
    rw [h2]
    simp [not_lt.mpr hge, hne]
  · intro hge heq hnone
    unfold roiPoolTypeShapeInference
    rw [h2]
    simp [not_lt.mpr hge, heq, hnone]
  · intro ps2 hge heq hsome hne
    unfold roiPoolTypeShapeInference
    rw [h2]
    simp [not_lt.mpr hge, heq, hsome, hne]
  · intro ps2 hge heq hsome hlen _
    unfold roiPoolTypeShapeInference
    rw [h2]
    simp [not_lt.mpr hge, heq, hsome, hlen, propagateElemTypeFromInputToOutput]

/-- C8 witness: MaxRoiPool on data (2,3,9,9) with six RoIs and
pooled_shape (4,7) yields output shape (6,3,4,7). -/
theorem C8_witness :
    roiPoolTypeShapeInference ctxRoi =
      .ok { elemType := some 1, shape := some [some 6, some 3, some 4, some 7] } :=
  (C8_roiPool ctxRoi (by decide)).2.2.2.2 [4, 7] (by decide) rfl rfl (by decide)
    (by decide)

/-- C9: every shape-inference function in the file propagates the first
input's element type to the first output before any early-return check,
so on every non-failing outcome — including all soft skips where no
shape is written — the output element type equals the input one. -/
theorem C9_elemType_alwaysPropagated (ctx : Ctx) (useD reqK : Bool) (out : OutTensor) :
    (convPoolTypeAndShapeInference ctx useD reqK = .ok out →
      out.elemType = ctx.elemType0) ∧
    (convTransposeShapeInference ctx = .ok out → out.elemType = ctx.elemType0) ∧
    (roiPoolTypeShapeInference ctx = .ok out → out.elemType = ctx.elemType0) ∧
    (gloablPoolTypeShapeInference ctx = .ok out → out.elemType = ctx.elemType0) ∧
    (flattenShapeInference ctx = .ok out → out.elemType = ctx.elemType0) := by
  refine ⟨?_, ?_, ?_, ?_, ?_⟩ <;> intro h
  · simp only [convPoolTypeAndShapeInference, propagateElemTypeFromInputToOutput] at h
    repeat' split at h
    all_goals (cases h <;> rfl)
  · simp only [convTransposeShapeInference, propagateElemTypeFromInputToOutput] at h
    repeat' split at h
    all_goals (cases h <;> rfl)
  · simp only [roiPoolTypeShapeInference, propagateElemTypeFromInputToOutput] at h
    repeat' split at h
    all_goals (cases h <;> rfl)
  · simp only [gloablPoolTypeShapeInference, propagateElemTypeFromInputToOutput] at h
    repeat' split at h
    all_goals (cases h <;> rfl)
  · simp only [flattenShapeInference, propagateElemTypeFromInputToOutput] at h
    repeat' split at h
    all_goals (cases h <;> rfl)

/-- C9 witness: a node with no input shapes at all and element type 7:
conv/pool inference skips, yet the output element type is 7. -/
theorem C9_witness :
    convPoolTypeAndShapeInference ctxNoInputs false true =
      .ok { elemType := some 7, shape := none } ∧
    (OutTensor.mk (some 7) none).elemType = ctxNoInputs.elemType0 :=
  ⟨by decide,
    (C9_elemType_alwaysPropagated ctxNoInputs false true
      (OutTensor.mk (some 7) none)).1 (by decide)⟩

/-- C10 counterexample: ConvTranspose with an unknown input spatial
dimension and explicit output_shape entry -1: the comparison against the
default 0 FAILS (-1 below 0), inference aborts and the attribute value is
NOT written — refuting the claim that for an unknown input dimension the
check always passes vacuously and the value is always written. -/
theorem C10_counterexample :
    (getInputShape ctxTransNegOut 0).getD 2 none = none ∧
    ctxTransNegOut.output_shape = some [-1] ∧
    convTransposeShapeInference ctxTransNegOut =
      .ok { elemType := some 1, shape := some [some 1, some 5] } := by
  refine ⟨by decide, rfl, by decide⟩

/-- C10 (amended): in ConvTranspose's explicit output_shape mode the
validation reads the input dimension's numeric value without first
checking that the dimension is known; an unknown dimension reads as the
unset default 0, so every NONNEGATIVE attribute entry passes the check
vacuously and is written as the output dimension unvalidated, while a
negative entry still aborts (compared against the same default 0). -/
theorem C10_unknownDim_defaultZero (ctx : Ctx) (ps ss ops ks os : List Int)
    (h1 : hasNInputShapes ctx 2 = true)
    (hap : ctx.auto_pad = false)
    (hrank : 2 ≤ (getInputShape ctx 0).length)
    (hgroup : getIntAttr ctx.group 1 = 1)
    (hdil : ctx.dilations = none)
    (hpads : softRepeatedAttr ctx.pads (((getInputShape ctx 0).length - 2) * 2)
      (List.replicate (((getInputShape ctx 0).length - 2) * 2) 0) = some ps)
    (hstr : softRepeatedAttr ctx.strides ((getInputShape ctx 0).length - 2)
      (List.replicate ((getInputShape ctx 0).length - 2) 1) = some ss)
    (hker : resolveKernelShapeT ctx ((getInputShape ctx 0).length - 2) = some ks)
    (hosh : ctx.output_shape = some os)
    (hlen : os.length = (getInputShape ctx 0).length - 2)
    (hpos : 0 < os.length)
    (hopad : softRepeatedAttr ctx.output_padding ((getInputShape ctx 0).length - 2)
      (List.replicate ((getInputShape ctx 0).length - 2) 0) = some ops)
    (hunk : ∀ k, k < os.length → (getInputShape ctx 0).getD (2 + k) none = none)
    (hnn : ∀ v ∈ os, 0 ≤ v) :
    convTransposeShapeInference ctx =
      .ok { elemType := ctx.elemType0, shape := some (
        (getInputShape ctx 0).getD 0 none ::
        (getInputShape ctx 1).getD 1 none :: os.map some) } := by
  have hosh2 : resolveOutputShapeAttr ctx ((getInputShape ctx 0).length - 2)
      = some os := by
    simp [resolveOutputShapeAttr, hosh, hlen]
  have h := convTranspose_reaches ctx ps ss ops ks os h1 hap hrank hgroup hdil
    hpads hstr hker hosh2 hopad
  rw [if_pos hpos] at h
  rw [explicitOutDims_all_ge (getInputShape ctx 0) os 0 ?_] at h
  · exact h
  · intro k hk
    have he : (2 : Nat) + 0 + k = 2 + k := by omega
    rw [he, hunk k hk]
    have hmem : os.getD k 0 ∈ os := by
      have hg : os.getD k 0 = os[k] := by
        simp [List.getD_eq_getElem?_getD, List.getElem?_eq_getElem hk]
      rw [hg]
      exact List.getElem_mem hk
    exact hnn _ hmem

/-- C10 witness: ConvTranspose with both input spatial dimensions
unknown and output_shape (7,9): both entries pass against the default 0
and are written directly. -/
theorem C10_witness :
    convTransposeShapeInference ctxTransUnkOut =
      .ok { elemType := some 1, shape := some [some 1, some 5, some 7, some 9] } :=
  C10_unknownDim_defaultZero ctxTransUnkOut [0, 0, 0, 0] [1, 1] [0, 0] [1, 1] [7, 9]
    (by decide) rfl (by decide) (by decide) rfl (by decide) (by decide) (by decide)
    rfl (by decide) (by decide) (by decide) (by decide) (by decide)
